import Mathlib

/-!
Verification development for the ArkDSS Colors of Water calibration driver
(src/python/StateTL_calibration.py).

The file shallowly embeds the three pieces of the script that the properties
below are about:

* template synthesis (the function named create_template_file in the source),
* per-run model execution and RMSE scoring (the function named run_extern
  in the source; embedded here under the name runExternal),
* the directory-cleanup phase of main (keep_previous handling).

Numeric cell values are modelled as rationals; the float value 1e999 used by
the source as a failure marker overflows to infinity and is modelled by a
dedicated sentinel constructor.  Tabular data is modelled by explicit row
structures; pandas DataFrames become lists of rows.
-/

namespace ArkDSS

/-! ## Template synthesis (create_template_file, source lines 37-68) -/

/-- One row of StateTL_calibration_inputdata.csv, after pandas parsing.
Field names follow the column names the source accesses: items["WD"],
items["Reach"], items["parameter"], items["symbol"], plus the sampling
fields value, minimum, maximum, vary consumed later by the driver. -/
structure ParamRecord where
  WD : Int
  Reach : Int
  parameter : String
  symbol : String
  value : Rat := 0
  minimum : Rat := 0
  maximum : Rat := 1
  vary : Bool := true
deriving Repr, DecidableEq

/-- One row of the baseline model input table StateTL_inputdata.csv.  The two
key columns WD and Reach that the source filters on are distinguished fields;
the remaining (parameter) columns are an association list from column name to
cell text.  Cells are strings because the source overwrites numeric cells with
placeholder strings. -/
structure TplRow where
  WD : Int
  Reach : Int
  cells : List (String × String)
deriving Repr, DecidableEq

/-- The placeholder token written into a template cell for a symbol:
the Python f-string with tilde delimiters. -/
def placeholder (s : String) : String := "~" ++ s ++ "~"

/-- Write value v into column col of a row, pandas .loc style: replace the
cell when the column exists, otherwise enlarge the row with a new cell. -/
def setCell (col v : String) (r : TplRow) : TplRow :=
  if col ∈ r.cells.map Prod.fst then
    { r with cells := r.cells.map (fun kv => if kv.1 = col then (col, v) else kv) }
  else
    { r with cells := r.cells ++ [(col, v)] }

/-- Read the cell of a row in column col. -/
def getCell (r : TplRow) (col : String) : Option String :=
  (r.cells.find? (fun kv => kv.1 = col)).map Prod.snd

/-- One iteration of the loop over parameter records (source lines 53-63):
first, when Reach is the sentinel -1, set the cell in every row whose WD
matches (line 59); then, unconditionally, set the cell of every row matching
both WD and Reach (line 63). -/
def applyRecord (tpl : List TplRow) (items : ParamRecord) : List TplRow :=
  let tpl1 :=
    if items.Reach = -1 then
      tpl.map (fun r =>
        if r.WD = items.WD then setCell items.parameter (placeholder items.symbol) r else r)
    else tpl
  tpl1.map (fun r =>
    if r.WD = items.WD ∧ r.Reach = items.Reach then
      setCell items.parameter (placeholder items.symbol) r
    else r)

/-- The template table produced by the record loop: fold applyRecord over the
records in table order, starting from the copied baseline table. -/
def createTemplate (records : List ParamRecord) (baseline : List TplRow) : List TplRow :=
  records.foldl applyRecord baseline

/-- First-occurrence deduplication, the behaviour of pandas Series.unique:
the accumulator holds the values already seen. -/
def uniqueAux {α : Type} [DecidableEq α] : List α → List α → List α
  | _, [] => []
  | seen, x :: xs => if x ∈ seen then uniqueAux seen xs else x :: uniqueAux (x :: seen) xs

/-- pandas Series.unique as a list operation. -/
def pandasUnique {α : Type} [DecidableEq α] (l : List α) : List α := uniqueAux [] l

/-- Embedding of create_template_file (source lines 37-68).  The raw CSV rows
arrive as options, a none being a fully blank line that dropna(how=all)
removes (line 41).  The file write on lines 65-67 is modelled by returning
the synthesized table alongside the values the source returns: the parameter
records and the length of the unique-symbol list. -/
def create_template_file (rawRows : List (Option ParamRecord)) (baseline : List TplRow) :
    List TplRow × List ParamRecord × Nat :=
  let df := rawRows.filterMap id
  let symbols_list := pandasUnique (df.map ParamRecord.symbol)
  let parameters := df
  let tpl := createTemplate parameters baseline
  (tpl, parameters, symbols_list.length)

/-- Whether the synthesized template contains the placeholder of symbol s in
some cell. -/
def symbolInTemplate (tpl : List TplRow) (s : String) : Bool :=
  tpl.any (fun r => r.cells.any (fun kv => kv.2 = placeholder s))

/-! ### Row-level characterization of the record loop -/

/-- The effect of one parameter record on one row: the per-row view of
applyRecord. -/
def rowApply (p : ParamRecord) (r : TplRow) : TplRow :=
  let r1 :=
    if p.Reach = -1 then
      (if r.WD = p.WD then setCell p.parameter (placeholder p.symbol) r else r)
    else r
  if r1.WD = p.WD ∧ r1.Reach = p.Reach then
    setCell p.parameter (placeholder p.symbol) r1
  else r1

/-- A record p targets the cell in column c of a row carrying keys wd and
reach when p writes that cell: matching column, matching water district, and
either the sentinel reach or a matching reach. -/
def targets (p : ParamRecord) (wd reach : Int) (c : String) : Prop :=
  c = p.parameter ∧ wd = p.WD ∧ (p.Reach = -1 ∨ reach = p.Reach)

instance (p : ParamRecord) (wd reach : Int) (c : String) : Decidable (targets p wd reach c) :=
  inferInstanceAs (Decidable (_ ∧ _ ∧ (_ ∨ _)))

/-- The accumulated effect of the record loop on a single row. -/
def foldRow (ps : List ParamRecord) (r : TplRow) : TplRow :=
  ps.foldl (fun row p => rowApply p row) r

/-- The last record of the list that targets the given cell, if any: the
record whose placeholder the single ordered loop leaves in that cell. -/
def lastTargeting (wd reach : Int) (c : String) : List ParamRecord → Option ParamRecord
  | [] => none
  | p :: ps =>
    match lastTargeting wd reach c ps with
    | some q => some q
    | none => if targets p wd reach c then some p else none

/-! ## Concrete fixtures used by counterexamples and witnesses -/

/-- A single baseline row: water district 1, reach 2, one parameter column K. -/
def rowK : TplRow := { WD := 1, Reach := 2, cells := [("K", "0.5")] }

/-- An explicit-reach record targeting the K cell of rowK. -/
def recExplicit : ParamRecord := { WD := 1, Reach := 2, parameter := "K", symbol := "a" }

/-- A sentinel-reach record targeting the K cell of every row of district 1. -/
def recSentinel : ParamRecord := { WD := 1, Reach := -1, parameter := "K", symbol := "b" }

/-- A vary=true record whose water district matches no baseline row. -/
def recNoMatch : ParamRecord := { WD := 5, Reach := -1, parameter := "K", symbol := "p1" }

/-! ## Model run and RMSE scoring (run_extern, source lines 71-112)

The source function run_extern is embedded as runExternal (the computable
part as runExternalQ).  The external executable is an opaque parameter: a
function from the filesystem to a new filesystem paired with its return code.
A subprocess cannot change the working directory of the calling process, so
the parameter acts on the filesystem component only. -/

/-- One data row of StateTL_out_calday.csv.  Column 0 is the WDID entity id,
the discriminator column 1-Gage/2-Sim is gageSim, and rest holds all further
fields of the row in order (the remaining metadata fields followed by the
numeric time series).  pandas to_numpy flattens a row to the full field list,
embedded by rowVec below. -/
structure OutputRow where
  WDID : Int
  gageSim : Int
  rest : List Rat
deriving Repr, DecidableEq

/-- The full field vector of a row, in column order, as to_numpy sees it. -/
def rowVec (r : OutputRow) : List Rat := (r.WDID : Rat) :: (r.gageSim : Rat) :: r.rest

/-- Gauge data of one WDID (source line 104): filter rows by WDID and
discriminator 1, flatten them to one vector, drop the first 7 fields. -/
def gaugeData (t : List OutputRow) (w : Int) : List Rat :=
  (((t.filter (fun r => r.WDID == w && r.gageSim == 1)).map rowVec).flatten).drop 7

/-- Simulated data of one WDID (source line 105): same with discriminator 2. -/
def simData (t : List OutputRow) (w : Int) : List Rat :=
  (((t.filter (fun r => r.WDID == w && r.gageSim == 2)).map rowVec).flatten).drop 7

/-- numpy elementwise subtraction with broadcasting: equal lengths subtract
pointwise, a length-one operand broadcasts, anything else raises. -/
def npSub (a b : List Rat) : Except String (List Rat) :=
  if a.length = b.length then Except.ok (List.zipWith (fun x y => x - y) a b)
  else if a.length = 1 then Except.ok (b.map (fun y => a.headI - y))
  else if b.length = 1 then Except.ok (a.map (fun x => x - b.headI))
  else Except.error "operands could not be broadcast together"

/-- Arithmetic mean of a list of rationals (np.mean on a nonempty vector). -/
def mean (l : List Rat) : Rat := l.sum / (l.length : Rat)

/-- The mean squared difference sim - gauge of one WDID (source line 107,
before np.sqrt); an Except because the numpy subtraction can raise. -/
def evalEntity (t : List OutputRow) (w : Int) : Except String Rat :=
  (npSub (simData t w) (gaugeData t w)).map (fun d => mean (d.map (fun x => x ^ 2)))

/-- The unique WDID list in first-occurrence order (source line 97). -/
def WDIDs (t : List OutputRow) : List Int := pandasUnique (t.map OutputRow.WDID)

/-- The per-entity loop of source lines 102-107: mean squared errors keyed by
the WDID rendered as a string, in WDID order; the first exception aborts the
whole computation, discarding entries already computed. -/
def evalOutputQ (t : List OutputRow) : Except String (List (String × Rat)) :=
  (WDIDs t).mapM (fun w => (evalEntity t w).map (fun q => (toString w, q)))

/-- A file in the modelled filesystem: either raw text (the materialized
model input) or a parsed output table. -/
inductive FileData where
  | raw (contents : String)
  | table (rows : List OutputRow)
deriving Repr, DecidableEq

/-- The filesystem: an association list from absolute path to file, newest
entry first. -/
abbrev FS := List (String × FileData)

/-- Read a file from the filesystem. -/
def readFile (fs : FS) (path : String) : Option FileData :=
  (fs.find? (fun kv => kv.1 = path)).map Prod.snd

/-- Write a file, shadowing any previous file at the same path. -/
def writeFile (fs : FS) (path : String) (d : FileData) : FS := (path, d) :: fs

/-- The expected model output filename read by run_extern (source line 95). -/
def outputName : String := "StateTL_out_calday.csv"

/-- pd.read_csv of the output file: missing or unparsable files raise, which
the embedding surfaces as an error value. -/
def readOutputTable (fs : FS) (path : String) : Except String (List OutputRow) :=
  match readFile fs path with
  | some (FileData.table t) => Except.ok t
  | some (FileData.raw _) => Except.error "Error tokenizing data"
  | none => Except.error ("No such file or directory: " ++ path)

/-- Path.name of a directory path: its last slash-separated component. -/
def lastComponent (p : String) : String := ((p.splitOn "/").getLast?).getD p

/-- Process state threaded through run_extern: the working directory of the
process, the filesystem, and the text printed so far. -/
structure Sys where
  cwd : String
  fs : FS
  log : List String
deriving Repr

/-- The print on source line 85. -/
def runningMsg (name : String) : String := "running StateTL from folder: " ++ name

/-- The print on source line 87. -/
def completedMsg (name : String) : String := name ++ " run completed!"

/-- The diagnostic print of the except branch, source line 109. -/
def notCreatedMsg (name err : String) : String :=
  "StateTL_out_calday.csv was not created in " ++ name ++ "\n" ++ err ++ "\n"

/-- The try block of source lines 93-107: read the output table from the
current directory and run the per-entity RMSE loop. -/
def tryEvalQ (fs : FS) (dir : String) : Except String (List (String × Rat)) :=
  (readOutputTable fs (dir ++ "/" ++ outputName)).bind evalOutputQ

/-- Computable core of run_extern (source lines 71-112).  Steps: remember the
entry working directory par_dir; materialize the model input file there
(pest_io.tpl_write, line 77); chdir into the matlab directory (line 80); run
the external model, whose return code ierr is bound on line 86 and never used
afterwards; chdir back to par_dir (line 91); then the try block.  On an
evaluation error the source rebinds the result to the 1e999 sentinel and logs
the diagnostic, discarding any partial per-entity values. -/
def runExternalQ (model : FS → FS × Int) (rendered inputFile matlabDir : String)
    (s : Sys) : Sys × Except String (List (String × Rat)) :=
  let parDir := s.cwd
  let fs1 := writeFile s.fs (parDir ++ "/" ++ inputFile) (FileData.raw rendered)
  let s1 : Sys := { cwd := matlabDir, fs := fs1,
                    log := s.log ++ [runningMsg (lastComponent parDir)] }
  let res := model s1.fs
  let s2 : Sys := { cwd := parDir, fs := res.1,
                    log := s1.log ++ [completedMsg (lastComponent parDir)] }
  match tryEvalQ s2.fs s2.cwd with
  | Except.ok vals => (s2, Except.ok vals)
  | Except.error e =>
      ({ s2 with log := s2.log ++ [notCreatedMsg (lastComponent parDir) e] },
        Except.error e)

/-- The value run_extern returns: either the RMSE table (a DataFrame whose
single column is named RMSE followed by the run folder name) or the scalar
failure sentinel 1e999 (infinity in floating point). -/
inductive RunResult where
  | sentinel
  | table (col : String) (vals : List (String × Real))

/-- run_extern itself: the computable core followed by np.sqrt applied to
each stored mean squared error. -/
noncomputable def runExternal (model : FS → FS × Int) (rendered inputFile matlabDir : String)
    (s : Sys) : Sys × RunResult :=
  match runExternalQ model rendered inputFile matlabDir s with
  | (s2, Except.ok vals) =>
      (s2, RunResult.table ("RMSE" ++ lastComponent s.cwd)
        (vals.map (fun p => (p.1, Real.sqrt p.2))))
  | (s2, Except.error _) => (s2, RunResult.sentinel)

/-- The numeric series of a row in the sense of the spec: the row fields with
the first 7 (metadata) fields dropped. -/
def specSeries (r : OutputRow) : List Rat := (rowVec r).drop 7

/-- Modelled from the spec: the mean of the squared differences between the
series of the SIMULATED row and the series of the OBSERVED row of an entity,
selecting each row as the unique row with that discriminator.  The RMSE the
spec prescribes is the square root of this value. -/
def specMSE (t : List OutputRow) (w : Int) : Rat :=
  match t.find? (fun r => r.WDID == w && r.gageSim == 1),
        t.find? (fun r => r.WDID == w && r.gageSim == 2) with
  | some rg, some rs =>
      mean ((List.zipWith (fun x y => x - y) (specSeries rs) (specSeries rg)).map
        (fun x => x ^ 2))
  | _, _ => 0

/-! ## Directory cleanup in main (source lines 163-171 and 190) -/

/-- A filesystem-directory event of the setup phase of main. -/
inductive DirEvent where
  | remove (path : String)
  | create (path : String)
deriving Repr, DecidableEq

/-- Whether an event removes an entry. -/
def DirEvent.isRemove : DirEvent → Bool
  | DirEvent.remove _ => true
  | DirEvent.create _ => false

/-- The ordered directory events of main: when keep_previous equals delete,
every entry matching the glob calib_dir slash star is removed by rmtree
(source lines 163-167); then the results directory is created if absent
(lines 170-171); then the run working directories are created by the
sample-set run (line 190). -/
def setupEvents (keepPrevious : String) (existing : List String) (resultsLoc : String)
    (resultsExists : Bool) (runDirs : List String) : List DirEvent :=
  (if keepPrevious = "delete" then existing.map DirEvent.remove else [])
    ++ (if resultsExists then [] else [DirEvent.create resultsLoc])
    ++ runDirs.map DirEvent.create

/-! ### Concrete fixtures for the run section -/

/-- Observed row of entity 100 with series 1, 2, 3 (the spec example). -/
def row100g : OutputRow := { WDID := 100, gageSim := 1, rest := [0, 0, 0, 0, 0, 1, 2, 3] }

/-- Simulated row of entity 100 with series 1, 1, 4 (the spec example). -/
def row100s : OutputRow := { WDID := 100, gageSim := 2, rest := [0, 0, 0, 0, 0, 1, 1, 4] }

/-- Observed row of entity 200 with no simulated partner. -/
def row200g : OutputRow := { WDID := 200, gageSim := 1, rest := [0, 0, 0, 0, 0, 3, 3, 3] }

/-- A well-paired output table. -/
def tGood : List OutputRow := [row100g, row100s]

/-- An output table whose first entity evaluates but whose second raises. -/
def tPartial : List OutputRow := [row100g, row100s, row200g]

/-- Path of the model output file of run working directory par3. -/
def goodPath : String := "/base/calib/par3/" ++ outputName

/-- Process state with the well-paired output table present. -/
def sysGood : Sys :=
  { cwd := "/base/calib/par3", fs := [(goodPath, FileData.table tGood)], log := [] }

/-- Process state with the partially-evaluable output table present. -/
def sysPartial : Sys :=
  { cwd := "/base/calib/par3", fs := [(goodPath, FileData.table tPartial)], log := [] }

/-- Process state with no output file at all. -/
def sysEmpty : Sys := { cwd := "/base/calib/par3", fs := [], log := [] }

/-- A model that writes nothing and exits with code 0. -/
def modelId : FS → FS × Int := fun fs => (fs, 0)

/-- A model that writes nothing and exits with code 3. -/
def modelRc3 : FS → FS × Int := fun fs => (fs, 3)

/-! ## Theorems -/

theorem setCell_WD (col v : String) (r : TplRow) : (setCell col v r).WD = r.WD := by
  unfold setCell; split <;> rfl

theorem setCell_Reach (col v : String) (r : TplRow) : (setCell col v r).Reach = r.Reach := by
  unfold setCell; split <;> rfl

theorem rowApply_WD (p : ParamRecord) (r : TplRow) : (rowApply p r).WD = r.WD := by
  unfold rowApply
  simp [apply_ite TplRow.WD, setCell_WD]

theorem rowApply_Reach (p : ParamRecord) (r : TplRow) : (rowApply p r).Reach = r.Reach := by
  unfold rowApply
  simp [apply_ite TplRow.Reach, setCell_Reach]

theorem applyRecord_eq_map (tpl : List TplRow) (p : ParamRecord) :
    applyRecord tpl p = tpl.map (rowApply p) := by
  unfold applyRecord rowApply
  by_cases h : p.Reach = -1 <;> simp [h, List.map_map, Function.comp]

theorem find?_update_self (cells : List (String × String)) (col v : String)
    (h : col ∈ cells.map Prod.fst) :
    (cells.map (fun kv => if kv.1 = col then (col, v) else kv)).find?
      (fun kv => kv.1 = col) = some (col, v) := by
  induction cells with
  | nil => simp at h
  | cons hd tl ih =>
    rw [List.map_cons] at h ⊢
    by_cases hc : hd.1 = col
    · rw [if_pos hc, List.find?_cons_of_pos _ (by simp)]
    · have h2 : col ∈ tl.map Prod.fst := by
        rcases List.mem_cons.mp h with e | m
        · exact absurd e.symm hc
        · exact m
      rw [if_neg hc, List.find?_cons_of_neg _ (by simp [hc]), ih h2]

theorem find?_update_other (cells : List (String × String)) (col v c : String)
    (hcc : c ≠ col) :
    (cells.map (fun kv => if kv.1 = col then (col, v) else kv)).find?
      (fun kv => kv.1 = c) = cells.find? (fun kv => kv.1 = c) := by
  induction cells with
  | nil => rfl
  | cons hd tl ih =>
    rw [List.map_cons]
    by_cases hc : hd.1 = col
    · have hne : ¬ col = c := fun e => hcc e.symm
      have hne2 : ¬ hd.1 = c := by rw [hc]; exact hne
      rw [if_pos hc, List.find?_cons_of_neg _ (by simp [hne]),
        List.find?_cons_of_neg _ (by simp [hne2]), ih]
    · rw [if_neg hc]
      by_cases hc2 : hd.1 = c
      · rw [List.find?_cons_of_pos _ (by simp [hc2]), List.find?_cons_of_pos _ (by simp [hc2])]
      · rw [List.find?_cons_of_neg _ (by simp [hc2]), List.find?_cons_of_neg _ (by simp [hc2]),
          ih]

theorem find?_append_self (cells : List (String × String)) (col v : String)
    (h : col ∉ cells.map Prod.fst) :
    (cells ++ [(col, v)]).find? (fun kv => kv.1 = col) = some (col, v) := by
  induction cells with
  | nil => rw [List.nil_append, List.find?_cons_of_pos _ (by simp)]
  | cons hd tl ih =>
    have hc : ¬ hd.1 = col := fun e => by
      rw [List.map_cons] at h; exact h (List.mem_cons.mpr (Or.inl e.symm))
    have h2 : col ∉ tl.map Prod.fst := fun m => by
      rw [List.map_cons] at h; exact h (List.mem_cons.mpr (Or.inr m))
    rw [List.cons_append, List.find?_cons_of_neg _ (by simp [hc]), ih h2]

theorem find?_append_other (cells : List (String × String)) (col v c : String)
    (hcc : c ≠ col) :
    (cells ++ [(col, v)]).find? (fun kv => kv.1 = c) =
      cells.find? (fun kv => kv.1 = c) := by
  induction cells with
  | nil =>
    rw [List.nil_append, List.find?_cons_of_neg _ (by simp [Ne.symm hcc])]
  | cons hd tl ih =>
    by_cases hc : hd.1 = c
    · rw [List.cons_append, List.find?_cons_of_pos _ (by simp [hc]),
        List.find?_cons_of_pos _ (by simp [hc])]
    · rw [List.cons_append, List.find?_cons_of_neg _ (by simp [hc]),
        List.find?_cons_of_neg _ (by simp [hc]), ih]

theorem getCell_setCell_same (col v : String) (r : TplRow) :
    getCell (setCell col v r) col = some v := by
  unfold getCell setCell
  by_cases h : col ∈ r.cells.map Prod.fst
  · rw [if_pos h]
    simp [find?_update_self r.cells col v h]
  · rw [if_neg h]
    simp [find?_append_self r.cells col v h]

theorem getCell_setCell_other (col v c : String) (r : TplRow) (hcc : c ≠ col) :
    getCell (setCell col v r) c = getCell r c := by
  unfold getCell setCell
  by_cases h : col ∈ r.cells.map Prod.fst
  · rw [if_pos h]
    simp [find?_update_other r.cells col v c hcc]
  · rw [if_neg h]
    simp [find?_append_other r.cells col v c hcc]

theorem getCell_rowApply (p : ParamRecord) (r : TplRow) (c : String) :
    getCell (rowApply p r) c =
      if targets p r.WD r.Reach c then some (placeholder p.symbol) else getCell r c := by
  unfold rowApply targets
  by_cases hcol : c = p.parameter <;>
  by_cases hre : p.Reach = -1 <;>
  by_cases hwd : r.WD = p.WD <;>
  by_cases hrc : r.Reach = p.Reach <;>
  simp [hcol, hre, hwd, hrc, apply_ite TplRow.WD, apply_ite TplRow.Reach,
    setCell_WD, setCell_Reach, getCell_setCell_same, getCell_setCell_other] <;>
  try (split <;> simp [hcol, getCell_setCell_same, getCell_setCell_other])


theorem createTemplate_eq_map (ps : List ParamRecord) (baseline : List TplRow) :
    createTemplate ps baseline = baseline.map (foldRow ps) := by
  induction ps generalizing baseline with
  | nil =>
    have h : foldRow ([] : List ParamRecord) = id := funext fun r => rfl
    simp [createTemplate, h]
  | cons p ps ih =>
    unfold createTemplate at ih ⊢
    rw [List.foldl_cons, applyRecord_eq_map, ih, List.map_map]
    rfl


theorem getCell_foldRow (ps : List ParamRecord) (r : TplRow) (c : String) :
    getCell (foldRow ps r) c =
      match lastTargeting r.WD r.Reach c ps with
      | some q => some (placeholder q.symbol)
      | none => getCell r c := by
  induction ps generalizing r with
  | nil => rfl
  | cons p ps ih =>
    have hfold : foldRow (p :: ps) r = foldRow ps (rowApply p r) := rfl
    rw [hfold, ih (rowApply p r), rowApply_WD, rowApply_Reach]
    cases hlt : lastTargeting r.WD r.Reach c ps with
    | some q => simp [lastTargeting, hlt]
    | none =>
      simp only [lastTargeting, hlt]
      rw [getCell_rowApply]
      by_cases ht : targets p r.WD r.Reach c
      · simp [ht]
      · simp [ht]

theorem lastTargeting_mem (wd reach : Int) (c : String) (ps : List ParamRecord)
    (q : ParamRecord) (h : lastTargeting wd reach c ps = some q) :
    q ∈ ps ∧ targets q wd reach c := by
  induction ps with
  | nil => simp [lastTargeting] at h
  | cons a ps ih =>
    simp only [lastTargeting] at h
    cases hlt : lastTargeting wd reach c ps with
    | some b =>
      rw [hlt] at h
      have heq : b = q := Option.some_inj.mp h
      subst heq
      obtain ⟨hm, htg⟩ := ih hlt
      exact ⟨List.mem_cons_of_mem a hm, htg⟩
    | none =>
      rw [hlt] at h
      by_cases ht : targets a wd reach c
      · rw [if_pos ht] at h
        have heq : a = q := Option.some_inj.mp h
        subst heq
        exact ⟨List.mem_cons_self a ps, ht⟩
      · rw [if_neg ht] at h
        exact absurd h (by simp)

theorem lastTargeting_eq_none_iff (wd reach : Int) (c : String) (ps : List ParamRecord) :
    lastTargeting wd reach c ps = none ↔ ∀ q ∈ ps, ¬ targets q wd reach c := by
  induction ps with
  | nil => simp [lastTargeting]
  | cons a ps ih =>
    simp only [lastTargeting]
    cases hlt : lastTargeting wd reach c ps with
    | some b =>
      simp only []
      constructor
      · intro h; exact absurd h (by simp)
      · intro h
        exact absurd (hlt ▸ (ih.mpr (fun q hq => h q (List.mem_cons_of_mem a hq))))
          (by simp [hlt])
    | none =>
      simp only []
      by_cases ht : targets a wd reach c
      · rw [if_pos ht]
        constructor
        · intro h; exact absurd h (by simp)
        · intro h; exact absurd ht (h a (List.mem_cons_self a ps))
      · rw [if_neg ht]
        constructor
        · intro _ q hq
          rcases List.mem_cons.mp hq with rfl | hm
          · exact ht
          · exact (ih.mp hlt) q hm
        · intro _; rfl

theorem lastTargeting_unique (wd reach : Int) (c : String) (ps : List ParamRecord)
    (p : ParamRecord) (hp : p ∈ ps) (ht : targets p wd reach c)
    (huniq : ∀ q ∈ ps, targets q wd reach c → q = p) :
    lastTargeting wd reach c ps = some p := by
  induction ps with
  | nil => simp at hp
  | cons a ps ih =>
    simp only [lastTargeting]
    cases hlt : lastTargeting wd reach c ps with
    | some q =>
      obtain ⟨hm, htg⟩ := lastTargeting_mem wd reach c ps q hlt
      rw [huniq q (List.mem_cons_of_mem a hm) htg]
    | none =>
      rcases List.mem_cons.mp hp with rfl | hm
      · rw [if_pos ht]
      · exact absurd ht ((lastTargeting_eq_none_iff wd reach c ps).mp hlt p hm)

theorem foldRow_WD (ps : List ParamRecord) (r : TplRow) : (foldRow ps r).WD = r.WD := by
  induction ps generalizing r with
  | nil => rfl
  | cons p ps ih =>
    rw [show foldRow (p :: ps) r = foldRow ps (rowApply p r) from rfl, ih, rowApply_WD]

theorem foldRow_Reach (ps : List ParamRecord) (r : TplRow) :
    (foldRow ps r).Reach = r.Reach := by
  induction ps generalizing r with
  | nil => rfl
  | cons p ps ih =>
    rw [show foldRow (p :: ps) r = foldRow ps (rowApply p r) from rfl, ih, rowApply_Reach]

theorem lastTargeting_append (wd reach : Int) (c : String) (l1 l2 : List ParamRecord) :
    lastTargeting wd reach c (l1 ++ l2) =
      match lastTargeting wd reach c l2 with
      | some q => some q
      | none => lastTargeting wd reach c l1 := by
  induction l1 with
  | nil =>
    rw [List.nil_append]
    cases lastTargeting wd reach c l2 <;> rfl
  | cons p l1 ih =>
    simp only [List.cons_append, lastTargeting, List.append_eq, ih]
    cases h2 : lastTargeting wd reach c l2 with
    | some q => rfl
    | none =>
      cases h1 : lastTargeting wd reach c l1 with
      | some b => rfl
      | none => rfl

theorem mem_uniqueAux {α : Type} [DecidableEq α] (seen l : List α) (x : α) :
    x ∈ uniqueAux seen l ↔ x ∈ l ∧ x ∉ seen := by
  induction l generalizing seen with
  | nil =>
    rw [show uniqueAux seen ([] : List α) = [] from rfl]
    simp
  | cons a as ih =>
    by_cases ha : a ∈ seen
    · rw [uniqueAux, if_pos ha, ih]
      constructor
      · rintro ⟨hm, hn⟩; exact ⟨List.mem_cons_of_mem a hm, hn⟩
      · rintro ⟨hm, hn⟩
        rcases List.mem_cons.mp hm with rfl | hm2
        · exact absurd ha hn
        · exact ⟨hm2, hn⟩
    · rw [uniqueAux, if_neg ha]
      constructor
      · intro hm
        rcases List.mem_cons.mp hm with rfl | hm2
        · exact ⟨List.mem_cons_self _ _, ha⟩
        · obtain ⟨h1, h2⟩ := (ih (a :: seen)).mp hm2
          exact ⟨List.mem_cons_of_mem a h1, fun hs => h2 (List.mem_cons_of_mem a hs)⟩
      · rintro ⟨hm, hn⟩
        rcases List.mem_cons.mp hm with rfl | hm2
        · exact List.mem_cons_self _ _
        · by_cases hxa : x = a
          · subst hxa; exact List.mem_cons_self _ _
          · refine List.mem_cons_of_mem _ ((ih (a :: seen)).mpr ⟨hm2, ?_⟩)
            intro hs
            rcases List.mem_cons.mp hs with e | e2
            · exact hxa e
            · exact hn e2

theorem nodup_uniqueAux {α : Type} [DecidableEq α] (seen l : List α) :
    (uniqueAux seen l).Nodup := by
  induction l generalizing seen with
  | nil => exact List.nodup_nil
  | cons a as ih =>
    by_cases ha : a ∈ seen
    · rw [uniqueAux, if_pos ha]; exact ih seen
    · rw [uniqueAux, if_neg ha]
      refine List.nodup_cons.mpr ⟨?_, ih (a :: seen)⟩
      intro hmem
      exact ((mem_uniqueAux (a :: seen) as a).mp hmem).2 (List.mem_cons_self a seen)

theorem length_pandasUnique {α : Type} [DecidableEq α] (l : List α) :
    (pandasUnique l).length = l.toFinset.card := by
  have htf : (pandasUnique l).toFinset = l.toFinset := by
    ext x
    simp [List.mem_toFinset, pandasUnique, mem_uniqueAux]
  calc (pandasUnique l).length = (pandasUnique l).toFinset.card :=
        (List.toFinset_card_of_nodup (nodup_uniqueAux [] l)).symm
    _ = l.toFinset.card := by rw [htf]

theorem symbolInTemplate_of_getCell (tpl : List TplRow) (rr : TplRow) (hm : rr ∈ tpl)
    (c s : String) (h : getCell rr c = some (placeholder s)) :
    symbolInTemplate tpl s = true := by
  unfold getCell at h
  cases hf : rr.cells.find? (fun kv => kv.1 = c) with
  | none => rw [hf] at h; simp at h
  | some kv =>
    rw [hf] at h
    simp at h
    have hkvmem := List.mem_of_find?_eq_some hf
    unfold symbolInTemplate
    rw [List.any_eq_true]
    refine ⟨rr, hm, ?_⟩
    rw [List.any_eq_true]
    exact ⟨kv, hkvmem, by simp [h]⟩


/-! ## Claim C1 -/

/-- Claim C1 as stated is false on the code: the record loop applies sentinel
and explicit assignments record by record in table order, so the synthesized
cell depends on the relative order of the two records.  With the explicit
record first and the sentinel second, the shared cell holds the sentinel
placeholder, not the explicit one; reversing the rows reverses the outcome. -/
theorem order_dependence_cex :
    (createTemplate [recExplicit, recSentinel] [rowK]).map (fun r => getCell r "K")
        = [some (placeholder recSentinel.symbol)] ∧
      (createTemplate [recSentinel, recExplicit] [rowK]).map (fun r => getCell r "K")
        = [some (placeholder recExplicit.symbol)] ∧
      ¬ (createTemplate [recExplicit, recSentinel] [rowK]).map (fun r => getCell r "K")
        = [some (placeholder recExplicit.symbol)] := by
  decide

/-- Claim C1 (amended): the placeholder of the explicit-reach record wins
exactly when that record is applied after every other record targeting the
same cell; in particular, when the explicit record appears after the sentinel
record in the parameter table and no later record targets the cell, the
synthesized cell equals the explicit placeholder. -/
theorem explicit_overrides_when_after_sentinel
    (baseline : List TplRow) (pre post : List ParamRecord) (ps pe : ParamRecord)
    (r : TplRow) (hr : r ∈ baseline) (c : String)
    (hs : ps ∈ pre) (hsent : ps.Reach = -1) (hstgt : targets ps r.WD r.Reach c)
    (hetgt : targets pe r.WD r.Reach c)
    (hpost : ∀ q ∈ post, ¬ targets q r.WD r.Reach c) :
    ∃ rr ∈ createTemplate (pre ++ pe :: post) baseline,
      rr.WD = r.WD ∧ rr.Reach = r.Reach ∧ getCell rr c = some (placeholder pe.symbol) := by
  refine ⟨foldRow (pre ++ pe :: post) r, ?_, foldRow_WD _ r, foldRow_Reach _ r, ?_⟩
  · rw [createTemplate_eq_map]
    exact List.mem_map_of_mem _ hr
  · rw [getCell_foldRow, lastTargeting_append]
    have hposts : lastTargeting r.WD r.Reach c post = none :=
      (lastTargeting_eq_none_iff r.WD r.Reach c post).mpr hpost
    simp only [lastTargeting, hposts, if_pos hetgt]

/-- Witness for the amended C1 theorem at a concrete input. -/
theorem explicit_overrides_when_after_sentinel_witness :
    rowK ∈ [rowK] ∧ recSentinel ∈ [recSentinel] ∧ recSentinel.Reach = -1 ∧
      targets recSentinel rowK.WD rowK.Reach "K" ∧
      targets recExplicit rowK.WD rowK.Reach "K" ∧
      (∀ q ∈ ([] : List ParamRecord), ¬ targets q rowK.WD rowK.Reach "K") ∧
      ∃ rr ∈ createTemplate ([recSentinel] ++ recExplicit :: []) [rowK],
        rr.WD = rowK.WD ∧ rr.Reach = rowK.Reach ∧
          getCell rr "K" = some (placeholder recExplicit.symbol) :=
  ⟨by decide, by decide, by decide, by decide, by decide, by decide,
    explicit_overrides_when_after_sentinel [rowK] [recSentinel] [] recSentinel recExplicit
      rowK (by decide) "K" (by decide) (by decide) (by decide) (by decide) (by decide)⟩

/-! ## Claim C4 -/

/-- Claim C4 as stated is false on the code: a record referencing a water
district with no matching baseline row raises nothing.  Template synthesis
returns normally, the template equals the baseline unchanged, and the full
return triple is produced, so setup proceeds rather than aborting. -/
theorem schema_error_never_raised_cex :
    create_template_file [some recNoMatch] [rowK] = ([rowK], [recNoMatch], 1) := by
  decide

/-- Claim C4 (amended): when a record matches no baseline row, the record
loop leaves the table unchanged at that record and synthesis completes
normally; no error is signalled. -/
theorem no_matching_row_noop (tpl : List TplRow) (p : ParamRecord)
    (h : ∀ r ∈ tpl, ¬ ((p.Reach = -1 ∧ r.WD = p.WD) ∨ (r.WD = p.WD ∧ r.Reach = p.Reach))) :
    applyRecord tpl p = tpl := by
  rw [applyRecord_eq_map]
  have hid : ∀ r ∈ tpl, rowApply p r = r := by
    intro r hr
    have h1 := h r hr
    unfold rowApply
    by_cases hre : p.Reach = -1
    · have hwd : ¬ r.WD = p.WD := fun e => h1 (Or.inl ⟨hre, e⟩)
      simp [hre, hwd]
    · have hcond : ¬ (r.WD = p.WD ∧ r.Reach = p.Reach) := fun e => h1 (Or.inr e)
      simp [hre, hcond]
  rw [List.map_congr_left hid, List.map_id_fun', id_eq]

/-- Witness for the amended C4 theorem at a concrete input. -/
theorem no_matching_row_noop_witness :
    (∀ r ∈ [rowK], ¬ ((recNoMatch.Reach = -1 ∧ r.WD = recNoMatch.WD) ∨
        (r.WD = recNoMatch.WD ∧ r.Reach = recNoMatch.Reach))) ∧
      applyRecord [rowK] recNoMatch = [rowK] :=
  ⟨by decide, no_matching_row_noop [rowK] recNoMatch (by decide)⟩

/-! ## Claim C5 -/

/-- Claim C5 as stated is false on the code: a vary=true record whose water
district matches no baseline row writes no placeholder (there is no schema
check to reject it), so its symbol never appears in the template even though
all symbols are unique. -/
theorem vary_symbol_missing_cex :
    ([recNoMatch].map ParamRecord.symbol).Nodup ∧ recNoMatch.vary = true ∧
      symbolInTemplate (createTemplate [recNoMatch] [rowK]) recNoMatch.symbol = false := by
  decide

/-- Claim C5 (amended): for a parameter table with unique symbols and
pairwise distinct parameter columns, every vary=true record that matches at
least one baseline row (by water district, with the sentinel reach or a
matching reach) has its symbol appear as a placeholder in the synthesized
template. -/
theorem vary_symbol_appears
    (recs : List ParamRecord) (baseline : List TplRow) (p : ParamRecord) (hp : p ∈ recs)
    (hsym : (recs.map ParamRecord.symbol).Nodup)
    (hcols : (recs.map ParamRecord.parameter).Nodup)
    (hvary : p.vary = true)
    (r : TplRow) (hr : r ∈ baseline)
    (hwd : r.WD = p.WD) (hreach : p.Reach = -1 ∨ r.Reach = p.Reach) :
    symbolInTemplate (createTemplate recs baseline) p.symbol = true := by
  have ht : targets p r.WD r.Reach p.parameter := ⟨rfl, hwd, hreach⟩
  have huniq : ∀ q ∈ recs, targets q r.WD r.Reach p.parameter → q = p := by
    intro q hq htq
    exact List.inj_on_of_nodup_map hcols hq hp htq.1.symm
  have hlast : lastTargeting r.WD r.Reach p.parameter recs = some p :=
    lastTargeting_unique r.WD r.Reach p.parameter recs p hp ht huniq
  have hcell : getCell (foldRow recs r) p.parameter = some (placeholder p.symbol) := by
    rw [getCell_foldRow, hlast]
  refine symbolInTemplate_of_getCell _ (foldRow recs r) ?_ p.parameter p.symbol hcell
  rw [createTemplate_eq_map]
  exact List.mem_map_of_mem _ hr

/-- Witness for the amended C5 theorem at a concrete input. -/
theorem vary_symbol_appears_witness :
    recExplicit ∈ [recExplicit] ∧ ([recExplicit].map ParamRecord.symbol).Nodup ∧
      ([recExplicit].map ParamRecord.parameter).Nodup ∧ recExplicit.vary = true ∧
      rowK ∈ [rowK] ∧ rowK.WD = recExplicit.WD ∧
      (recExplicit.Reach = -1 ∨ rowK.Reach = recExplicit.Reach) ∧
      symbolInTemplate (createTemplate [recExplicit] [rowK]) recExplicit.symbol = true :=
  ⟨by decide, by decide, by decide, by decide, by decide, by decide, by decide,
    vary_symbol_appears [recExplicit] [rowK] recExplicit (by decide) (by decide) (by decide)
      (by decide) rowK (by decide) (by decide) (by decide)⟩

/-! ## Claim C6 -/

/-- Claim C6: create_template_file returns the parameter records exactly as
parsed (blank rows dropped, otherwise unchanged) together with the number of
distinct symbol values of the table; the count is the cardinality of the set
of symbols, so duplicated symbols are counted once. -/
theorem create_template_file_return (rawRows : List (Option ParamRecord))
    (baseline : List TplRow) :
    (create_template_file rawRows baseline).2.1 = rawRows.filterMap id ∧
    (create_template_file rawRows baseline).2.2 =
      ((rawRows.filterMap id).map ParamRecord.symbol).toFinset.card := by
  refine ⟨rfl, ?_⟩
  show (pandasUnique ((rawRows.filterMap id).map ParamRecord.symbol)).length = _
  exact length_pandasUnique _


/-! ### Supporting lemmas for the run section -/

theorem mapM_ok {ε α β : Type} (f : α → Except ε β) (g : α → β) (l : List α)
    (h : ∀ a ∈ l, f a = Except.ok (g a)) : l.mapM f = Except.ok (l.map g) := by
  induction l with
  | nil => rfl
  | cons a as ih =>
    rw [List.mapM_cons, h a (List.mem_cons_self a as),
      ih (fun b hb => h b (List.mem_cons_of_mem a hb))]
    rfl

theorem find?_eq_head?_filter {α : Type} (p : α → Bool) (l : List α) :
    l.find? p = (l.filter p).head? := by
  induction l with
  | nil => rfl
  | cons x xs ih =>
    by_cases hp : p x = true
    · rw [List.find?_cons_of_pos _ hp, List.filter_cons_of_pos hp]
      rfl
    · rw [List.find?_cons_of_neg _ hp, List.filter_cons_of_neg (by simpa using hp), ih]

theorem evalOutputQ_ok (t : List OutputRow) (n : Nat)
    (hwidth : ∀ r ∈ t, r.rest.length = n)
    (hpair : ∀ w ∈ WDIDs t,
      (t.filter (fun r => r.WDID == w && r.gageSim == 1)).length = 1 ∧
      (t.filter (fun r => r.WDID == w && r.gageSim == 2)).length = 1) :
    evalOutputQ t = Except.ok ((WDIDs t).map (fun w => (toString w, specMSE t w))) := by
  unfold evalOutputQ
  apply mapM_ok
  intro w hw
  obtain ⟨h1, h2⟩ := hpair w hw
  obtain ⟨rg, hrg⟩ := List.length_eq_one.mp h1
  obtain ⟨rs, hrs⟩ := List.length_eq_one.mp h2
  have hrgmem : rg ∈ t :=
    (List.mem_filter.mp (by rw [hrg]; exact List.mem_singleton.mpr rfl)).1
  have hrsmem : rs ∈ t :=
    (List.mem_filter.mp (by rw [hrs]; exact List.mem_singleton.mpr rfl)).1
  have hg : gaugeData t w = specSeries rg := by
    unfold gaugeData specSeries
    rw [hrg]
    simp
  have hs : simData t w = specSeries rs := by
    unfold simData specSeries
    rw [hrs]
    simp
  have hfg : t.find? (fun r => r.WDID == w && r.gageSim == 1) = some rg := by
    rw [find?_eq_head?_filter, hrg]
    rfl
  have hfs : t.find? (fun r => r.WDID == w && r.gageSim == 2) = some rs := by
    rw [find?_eq_head?_filter, hrs]
    rfl
  have hlen : (specSeries rs).length = (specSeries rg).length := by
    unfold specSeries rowVec
    simp [hwidth rg hrgmem, hwidth rs hrsmem]
  unfold evalEntity npSub
  rw [hg, hs, if_pos hlen]
  unfold specMSE
  rw [hfg, hfs]
  rfl

theorem runExternal_fst (model : FS → FS × Int) (rendered inputFile matlabDir : String)
    (s : Sys) :
    (runExternal model rendered inputFile matlabDir s).1 =
      (runExternalQ model rendered inputFile matlabDir s).1 := by
  unfold runExternal
  cases h : runExternalQ model rendered inputFile matlabDir s with
  | mk s2 r => cases r <;> simp

theorem runExternalQ_cwd (model : FS → FS × Int) (rendered inputFile matlabDir : String)
    (s : Sys) :
    (runExternalQ model rendered inputFile matlabDir s).1.cwd = s.cwd := by
  unfold runExternalQ
  cases htry : tryEvalQ
      (model (writeFile s.fs (s.cwd ++ "/" ++ inputFile) (FileData.raw rendered))).1 s.cwd <;>
    simp [htry]


/-! ## Claim C2 -/

/-- Claim C2: when the expected output file is absent or unreadable in the
run working directory after the model ran, run_extern catches the read
failure instead of raising: it returns the failure sentinel and appends a
diagnostic naming the run folder to the log. -/
theorem missing_output_yields_sentinel (model : FS → FS × Int)
    (rendered inputFile matlabDir : String) (s : Sys) (e : String)
    (h : readOutputTable
        (model (writeFile s.fs (s.cwd ++ "/" ++ inputFile) (FileData.raw rendered))).1
        (s.cwd ++ "/" ++ outputName) = Except.error e) :
    (runExternal model rendered inputFile matlabDir s).2 = RunResult.sentinel ∧
      notCreatedMsg (lastComponent s.cwd) e ∈
        (runExternal model rendered inputFile matlabDir s).1.log := by
  have htry : tryEvalQ
      (model (writeFile s.fs (s.cwd ++ "/" ++ inputFile) (FileData.raw rendered))).1 s.cwd
      = Except.error e := by
    unfold tryEvalQ
    rw [h]
    rfl
  constructor
  · simp only [runExternal, runExternalQ, htry]
  · rw [runExternal_fst]
    simp only [runExternalQ, htry]
    simp

/-- Witness for the C2 theorem at a concrete input. -/
theorem missing_output_yields_sentinel_witness :
    readOutputTable
        (modelId (writeFile sysEmpty.fs
          (sysEmpty.cwd ++ "/" ++ "StateTL_inputdata.csv") (FileData.raw "x"))).1
        (sysEmpty.cwd ++ "/" ++ outputName)
      = Except.error ("No such file or directory: " ++ (sysEmpty.cwd ++ "/" ++ outputName)) ∧
    ((runExternal modelId "x" "StateTL_inputdata.csv" "/base/matlab" sysEmpty).2
        = RunResult.sentinel ∧
      notCreatedMsg (lastComponent sysEmpty.cwd)
          ("No such file or directory: " ++ (sysEmpty.cwd ++ "/" ++ outputName)) ∈
        (runExternal modelId "x" "StateTL_inputdata.csv" "/base/matlab" sysEmpty).1.log) :=
  ⟨rfl, missing_output_yields_sentinel modelId "x" "StateTL_inputdata.csv" "/base/matlab"
    sysEmpty ("No such file or directory: " ++ (sysEmpty.cwd ++ "/" ++ outputName)) rfl⟩

/-! ## Claim C3 -/

/-- Claim C3: on a well-formed output table, with exactly one observed and
one simulated row per entity id and uniform row width, run_extern returns
the table mapping each entity id to the square root of the mean squared
difference of the two series obtained by dropping the first 7 fields of each
row, in a column labeled RMSE followed by the run folder name. -/
theorem paired_output_rmse (model : FS → FS × Int)
    (rendered inputFile matlabDir : String) (s : Sys)
    (t : List OutputRow) (n : Nat) (hn : 6 ≤ n)
    (hread : readOutputTable
        (model (writeFile s.fs (s.cwd ++ "/" ++ inputFile) (FileData.raw rendered))).1
        (s.cwd ++ "/" ++ outputName) = Except.ok t)
    (hwidth : ∀ r ∈ t, r.rest.length = n)
    (hpair : ∀ w ∈ WDIDs t,
      (t.filter (fun r => r.WDID == w && r.gageSim == 1)).length = 1 ∧
      (t.filter (fun r => r.WDID == w && r.gageSim == 2)).length = 1) :
    (runExternal model rendered inputFile matlabDir s).2 =
      RunResult.table ("RMSE" ++ lastComponent s.cwd)
        ((WDIDs t).map (fun w => (toString w, Real.sqrt (specMSE t w)))) := by
  have htry : tryEvalQ
      (model (writeFile s.fs (s.cwd ++ "/" ++ inputFile) (FileData.raw rendered))).1 s.cwd
      = Except.ok ((WDIDs t).map (fun w => (toString w, specMSE t w))) := by
    unfold tryEvalQ
    rw [hread]
    exact evalOutputQ_ok t n hwidth hpair
  simp only [runExternal, runExternalQ, htry, List.map_map]
  rfl

/-- Witness for the C3 theorem: the spec example, observed series 1, 2, 3
and simulated series 1, 1, 4, giving RMSE sqrt of 2 thirds. -/
theorem paired_output_rmse_witness :
    (6 ≤ 8) ∧
    readOutputTable
        (modelId (writeFile sysGood.fs
          (sysGood.cwd ++ "/" ++ "StateTL_inputdata.csv") (FileData.raw "x"))).1
        (sysGood.cwd ++ "/" ++ outputName) = Except.ok tGood ∧
    (∀ r ∈ tGood, r.rest.length = 8) ∧
    (∀ w ∈ WDIDs tGood,
      (tGood.filter (fun r => r.WDID == w && r.gageSim == 1)).length = 1 ∧
      (tGood.filter (fun r => r.WDID == w && r.gageSim == 2)).length = 1) ∧
    (runExternal modelId "x" "StateTL_inputdata.csv" "/base/matlab" sysGood).2 =
      RunResult.table ("RMSE" ++ lastComponent sysGood.cwd)
        ((WDIDs tGood).map (fun w => (toString w, Real.sqrt (specMSE tGood w)))) :=
  ⟨by decide, rfl, by decide, by decide,
    paired_output_rmse modelId "x" "StateTL_inputdata.csv" "/base/matlab" sysGood tGood 8
      (by decide) rfl (by decide) (by decide)⟩

/-! ## Claim C7 -/

/-- Claim C7: run_extern restores the working directory: after a normal
return the cwd equals the cwd at entry, the chdir into the matlab directory
having been undone by the chdir back on source line 91. -/
theorem run_external_restores_cwd (model : FS → FS × Int)
    (rendered inputFile matlabDir : String) (s : Sys) :
    (runExternal model rendered inputFile matlabDir s).1.cwd = s.cwd := by
  rw [runExternal_fst, runExternalQ_cwd]

/-! ## Claim C8 -/

/-- Claim C8: the run result does not depend on the exit status of the
external model: two invocations from the same state whose filesystem effects
agree on the output file read back produce identical results whatever the
return codes (the code binds ierr and never consults it). -/
theorem result_independent_of_exit_status (m1 m2 : FS → FS × Int)
    (rendered inputFile matlabDir : String) (s : Sys)
    (h : readOutputTable
        (m1 (writeFile s.fs (s.cwd ++ "/" ++ inputFile) (FileData.raw rendered))).1
        (s.cwd ++ "/" ++ outputName) =
      readOutputTable
        (m2 (writeFile s.fs (s.cwd ++ "/" ++ inputFile) (FileData.raw rendered))).1
        (s.cwd ++ "/" ++ outputName)) :
    (runExternal m1 rendered inputFile matlabDir s).2 =
      (runExternal m2 rendered inputFile matlabDir s).2 := by
  have htry : tryEvalQ
      (m1 (writeFile s.fs (s.cwd ++ "/" ++ inputFile) (FileData.raw rendered))).1 s.cwd =
      tryEvalQ
      (m2 (writeFile s.fs (s.cwd ++ "/" ++ inputFile) (FileData.raw rendered))).1 s.cwd := by
    unfold tryEvalQ
    rw [h]
  cases hv : tryEvalQ
      (m1 (writeFile s.fs (s.cwd ++ "/" ++ inputFile) (FileData.raw rendered))).1 s.cwd with
  | ok vals =>
    have hv2 := htry ▸ hv
    simp only [runExternal, runExternalQ, hv, hv2]
  | error e =>
    have hv2 := htry ▸ hv
    simp only [runExternal, runExternalQ, hv, hv2]

/-- Witness for the C8 theorem: same filesystem effect, return codes 0 and 3. -/
theorem result_independent_of_exit_status_witness :
    readOutputTable
        (modelId (writeFile sysGood.fs
          (sysGood.cwd ++ "/" ++ "StateTL_inputdata.csv") (FileData.raw "x"))).1
        (sysGood.cwd ++ "/" ++ outputName) =
      readOutputTable
        (modelRc3 (writeFile sysGood.fs
          (sysGood.cwd ++ "/" ++ "StateTL_inputdata.csv") (FileData.raw "x"))).1
        (sysGood.cwd ++ "/" ++ outputName) ∧
    (runExternal modelId "x" "StateTL_inputdata.csv" "/base/matlab" sysGood).2 =
      (runExternal modelRc3 "x" "StateTL_inputdata.csv" "/base/matlab" sysGood).2 :=
  ⟨rfl, result_independent_of_exit_status modelId modelRc3 "x" "StateTL_inputdata.csv"
    "/base/matlab" sysGood rfl⟩

/-! ## Claim C9 -/

/-- Claim C9: the setup events of main decompose into the removal prefix
followed by creation events only: when keep_previous equals delete the prefix
removes every pre-existing entry under the run root before any creation
happens, and for any other value the prefix is empty, so nothing pre-existing
is ever removed. -/
theorem keep_previous_delete_semantics (kp : String) (existing : List String)
    (resultsLoc : String) (resultsExists : Bool) (runDirs : List String) :
    ∃ creations, (∀ ev ∈ creations, ev.isRemove = false) ∧
      setupEvents kp existing resultsLoc resultsExists runDirs =
        (if kp = "delete" then existing.map DirEvent.remove else []) ++ creations := by
  refine ⟨(if resultsExists then [] else [DirEvent.create resultsLoc])
      ++ runDirs.map DirEvent.create, ?_, ?_⟩
  swap
  · unfold setupEvents
    exact List.append_assoc _ _ _
  intro ev hev
  rcases List.mem_append.mp hev with h1 | h2
  · rcases resultsExists with _ | _
    · simp at h1
      rw [h1]
      rfl
    · simp at h1
  · obtain ⟨d, _, rfl⟩ := List.mem_map.mp h2
    rfl

/-! ## Claim C10 -/

/-- Claim C10: objective evaluation is all-or-nothing: whenever anything in
the try block raises, whether at the file read or mid-loop after some
entities already received an RMSE value, the whole returned result is the
scalar sentinel, never a partial per-entity table. -/
theorem eval_error_all_or_nothing (model : FS → FS × Int)
    (rendered inputFile matlabDir : String) (s : Sys) (e : String)
    (h : tryEvalQ
        (model (writeFile s.fs (s.cwd ++ "/" ++ inputFile) (FileData.raw rendered))).1
        s.cwd = Except.error e) :
    (runExternal model rendered inputFile matlabDir s).2 = RunResult.sentinel ∧
      ∀ col vals, (runExternal model rendered inputFile matlabDir s).2 ≠
        RunResult.table col vals := by
  have hres : (runExternal model rendered inputFile matlabDir s).2 = RunResult.sentinel := by
    simp only [runExternal, runExternalQ, h]
  exact ⟨hres, fun col vals hne => by rw [hres] at hne; exact RunResult.noConfusion hne⟩

/-- Witness for the C10 theorem: a table whose entity 100 evaluates to a
finite mean squared error while entity 200 raises a broadcast error, so the
loop fails after a partial result was computed and the sentinel is returned. -/
theorem eval_error_all_or_nothing_witness :
    tryEvalQ
        (modelId (writeFile sysPartial.fs
          (sysPartial.cwd ++ "/" ++ "StateTL_inputdata.csv") (FileData.raw "x"))).1
        sysPartial.cwd = Except.error "operands could not be broadcast together" ∧
    (evalEntity tPartial 100).isOk = true ∧
    evalEntity tPartial 200 = Except.error "operands could not be broadcast together" ∧
    ((runExternal modelId "x" "StateTL_inputdata.csv" "/base/matlab" sysPartial).2 =
        RunResult.sentinel ∧
      ∀ col vals, (runExternal modelId "x" "StateTL_inputdata.csv" "/base/matlab"
        sysPartial).2 ≠ RunResult.table col vals) :=
  ⟨rfl, rfl, rfl,
    eval_error_all_or_nothing modelId "x" "StateTL_inputdata.csv" "/base/matlab" sysPartial
      "operands could not be broadcast together" rfl⟩

end ArkDSS
